import Mathlib

/-!
Verification of the OSMStudio timeline/interpolation engine and export
orchestration pipeline, shallowly embedded from the JavaScript sources.

JavaScript numbers are modelled as exact rationals (`ℚ`).  A JavaScript
numeric value that may be `NaN` or `undefined` is modelled as `Option ℚ`
(`none` standing for NaN/undefined), with arithmetic that propagates
`none` the way IEEE arithmetic propagates NaN and the way arithmetic on
`undefined` produces NaN.
-/

/-- JavaScript numeric value: `some q` is an ordinary number, `none` is
NaN (or `undefined` fed into arithmetic, which yields NaN). -/
abbrev JVal := Option ℚ

/-- JavaScript `+` on numbers; NaN propagates. -/
def jadd : JVal → JVal → JVal
  | some a, some b => some (a + b)
  | _, _ => none

/-- JavaScript `-` on numbers; NaN propagates. -/
def jsub : JVal → JVal → JVal
  | some a, some b => some (a - b)
  | _, _ => none

/-- JavaScript `*` on numbers; NaN propagates (`NaN * 0` is NaN in JS). -/
def jmul : JVal → JVal → JVal
  | some a, some b => some (a * b)
  | _, _ => none

/-- JavaScript `/` on numbers.  Division by zero yields ±Infinity/NaN in
JS, which our rational carrier cannot represent; every division in the
embedded code is guarded so that a zero divisor is unreachable, and we
map that case to `none`. -/
def jdiv : JVal → JVal → JVal
  | some a, some b => if b = 0 then none else some (a / b)
  | _, _ => none

/-- `Math.abs`; NaN propagates. -/
def jabs : JVal → JVal := Option.map (fun q => |q|)

/-- `Math.pow` with a natural exponent; NaN propagates. -/
def jpow (x : JVal) (n : ℕ) : JVal := x.map (fun q => q ^ n)

/-- JavaScript `<` comparison: any comparison involving NaN is false. -/
def jlt : JVal → JVal → Bool
  | some a, some b => decide (a < b)
  | _, _ => false

/-! ### The `Interpolation` object (js/interpolation.js) -/

/-- `linear(t) = t`. -/
def Interpolation.linear (t : JVal) : JVal := t

/-- `easeIn(t) = t * t * t`. -/
def Interpolation.easeIn (t : JVal) : JVal := jmul (jmul t t) t

/-- `easeOut(t) = 1 - Math.pow(1 - t, 3)`. -/
def Interpolation.easeOut (t : JVal) : JVal :=
  jsub (some 1) (jpow (jsub (some 1) t) 3)

/-- `easeInOut(t) = t < 0.5 ? 4*t*t*t : 1 - Math.pow(-2*t + 2, 3) / 2`. -/
def Interpolation.easeInOut (t : JVal) : JVal :=
  if jlt t (some (0.5 : ℚ)) then jmul (some 4) (jmul (jmul t t) t)
  else jsub (some 1) (jdiv (jpow (jadd (jmul (some (-2)) t) (some 2)) 3) (some 2))

/-- One Newton-Raphson pass, iterated: `t2 -= x / d` with early exits once
`|sampleCurveX(t2) - t| < 0.001` or the derivative is near zero
(`|d| < 0.000001`).  The fuel argument is the loop bound (8 in source). -/
def Interpolation.newtonIter (ax bx cx target : JVal) : ℕ → JVal → JVal
  | 0, t2 => t2
  | n + 1, t2 =>
    let x := jsub (jmul (jadd (jmul (jadd (jmul ax t2) bx) t2) cx) t2) target
    if jlt (jabs x) (some (0.001 : ℚ)) then t2
    else
      let d := jadd (jmul (jadd (jmul (jmul (some 3) ax) t2) (jmul (some 2) bx)) t2) cx
      if jlt (jabs d) (some (0.000001 : ℚ)) then t2
      else Interpolation.newtonIter ax bx cx target n (jsub t2 (jdiv x d))

/-- `bezier(t, p1 = 0.42, p2 = 0, p3 = 0.58, p4 = 1)`: cubic Bézier easing
solved for the output given `t` as the input x-coordinate, via up to 8
Newton-Raphson iterations. -/
def Interpolation.bezier (t p1 p2 p3 p4 : JVal) : JVal :=
  let cx := jmul (some 3) p1
  let bx := jsub (jmul (some 3) (jsub p3 p1)) cx
  let ax := jsub (jsub (some 1) cx) bx
  let cy := jmul (some 3) p2
  let byv := jsub (jmul (some 3) (jsub p4 p2)) cy
  let ay := jsub (jsub (some 1) cy) byv
  let t2 := Interpolation.newtonIter ax bx cx t 8 t
  jmul (jadd (jmul (jadd (jmul ay t2) byv) t2) cy) t2

/-- The body `a + (b - a) * easedT` shared by `interpolate` and its
self-referential call (see `Interpolation.curveOf`). -/
def Interpolation.interpolateCore (a b easedT : JVal) : JVal :=
  jadd a (jmul (jsub b a) easedT)

/-- The members every plain object literal inherits from
`Object.prototype` (including the Annex B legacy accessors), all of which
make `this[type]` truthy even though they are not curves. -/
def objectProtoProps : List String :=
  ["constructor", "hasOwnProperty", "isPrototypeOf", "propertyIsEnumerable",
   "toLocaleString", "toString", "valueOf", "__proto__",
   "__defineGetter__", "__defineSetter__", "__lookupGetter__", "__lookupSetter__"]

/-- Numeric value that `this[name](t)` contributes as the eased parameter
when `name` is an inherited `Object.prototype` member:
`constructor` is the `Object` function, and `Object(t)` is a `Number`
wrapper that coerces back to `t` (and to NaN for NaN/undefined input);
`hasOwnProperty` / `isPrototypeOf` / `propertyIsEnumerable` return `false`
(a numeric key or a number is never a property / a prototype), which
coerces to `0`; `toString` / `toLocaleString` return the string
`[object Object]` and `valueOf` returns the object itself, both of which
coerce to NaN; `__lookupGetter__` / `__lookupSetter__` return `undefined`
(NaN in arithmetic); calling `__proto__` (the accessor yields
`Object.prototype`, not a function) or `__defineGetter__` /
`__defineSetter__` (with an undefined getter/setter) throws a TypeError —
an aborted evaluation, which this numeric model conservatively collapses
to NaN since no theorem in this file evaluates those members. -/
def objectProtoCall (name : String) (t : JVal) : JVal :=
  if name = "constructor" then t
  else if name = "hasOwnProperty" ∨ name = "isPrototypeOf" ∨
      name = "propertyIsEnumerable" then some 0
  else none

/-- Property lookup `this[type]` on the `Interpolation` object.  Its own
properties are the five curves *and* `interpolate` itself; calling
`this["interpolate"](t)` invokes `interpolate(a = t, b = undefined,
t = undefined, type = 'linear')`, whose eased parameter is
`linear(undefined)` — that inner call is written out here since its `type`
argument defaults to `'linear'` and cannot recurse further.  Beyond the
own properties, the lookup also finds the members inherited from
`Object.prototype` (`objectProtoProps`), which are truthy too; only for a
string naming no property at all is `this[type]` undefined (falsy). -/
def Interpolation.curveOf (ty : String) : Option (JVal → JVal) :=
  if ty = "linear" then some Interpolation.linear
  else if ty = "easeIn" then some Interpolation.easeIn
  else if ty = "easeOut" then some Interpolation.easeOut
  else if ty = "easeInOut" then some Interpolation.easeInOut
  else if ty = "bezier" then
    some (fun t => Interpolation.bezier t (some (0.42 : ℚ)) (some 0) (some (0.58 : ℚ)) (some 1))
  else if ty = "interpolate" then
    some (fun t => Interpolation.interpolateCore t none (Interpolation.linear none))
  else if objectProtoProps.contains ty then some (objectProtoCall ty)
  else none

/-- `interpolate(a, b, t, type)`:
`const easedT = this[type] ? this[type](t) : this.linear(t);
 return a + (b - a) * easedT;`. -/
def Interpolation.interpolate (a b t : JVal) (ty : String) : JVal :=
  match Interpolation.curveOf ty with
  | some f => Interpolation.interpolateCore a b (f t)
  | none => Interpolation.interpolateCore a b (Interpolation.linear t)

/-! ### Keyframes and the keyframe manager (js/keyframe-manager.js) -/

/-- A keyframe: a camera state anchored at a time, with the easing curve of
its outgoing segment. -/
structure Keyframe where
  time : ℚ
  latitude : ℚ
  longitude : ℚ
  zoom : ℚ
  interpolationType : String
deriving DecidableEq, Repr

/-- The camera components of a sampled state.  `Keyframe.toJSON` in the
source also serializes `time` and `interpolationType`; only the camera
components are relevant to sampling, so the embedding projects to them. -/
structure CameraState where
  latitude : JVal
  longitude : JVal
  zoom : JVal
deriving DecidableEq, Repr

/-- Camera components of `toJSON()` of a keyframe. -/
def Keyframe.toJSON (kf : Keyframe) : CameraState :=
  ⟨some kf.latitude, some kf.longitude, some kf.zoom⟩

/-- The fixed default state returned when there are no keyframes. -/
def defaultCamera : CameraState :=
  ⟨some (35.6762 : ℚ), some (139.6503 : ℚ), some 13⟩

/-- The scan loop of `getSurroundingKeyframes`: walks the array in order,
updating `before` whenever `time_i ≤ time`, and breaking with
`after = kf_i` at the first `time_i ≥ time` (the `!after` guard in the
source is always true at that point because the loop breaks immediately
after setting `after`). -/
def bracketLoop (time : ℚ) : List Keyframe → Option Keyframe → Option Keyframe × Option Keyframe
  | [], before => (before, none)
  | kf :: rest, before =>
    let before' := if kf.time ≤ time then some kf else before
    if time ≤ kf.time then (before', some kf)
    else bracketLoop time rest before'

/-- `getSurroundingKeyframes(time)` of the keyframe manager, over its
`keyframes` array. -/
def getSurroundingKeyframes (kfs : List Keyframe) (time : ℚ) :
    Option Keyframe × Option Keyframe :=
  if kfs = [] then (none, none) else bracketLoop time kfs none

/-- `interpolateAt(time)`: default state when no keyframes, one-sided
fallbacks, identity when `before === after`, otherwise per-component
interpolation with `t = duration > 0 ? elapsed / duration : 0` and the
curve taken from the `before` keyframe.  (`before === after` is object
identity in the source; two structurally equal keyframes produce the same
sample through either branch, so structural equality is observationally
faithful here.) -/
def KeyframeManager.interpolateAt (kfs : List Keyframe) (time : ℚ) : CameraState :=
  match getSurroundingKeyframes kfs time with
  | (none, none) => defaultCamera
  | (none, some a) => a.toJSON
  | (some b, none) => b.toJSON
  | (some b, some a) =>
    if b = a then b.toJSON
    else
      let duration := a.time - b.time
      let elapsed := time - b.time
      let t : ℚ := if duration > 0 then elapsed / duration else 0
      let interpType := b.interpolationType
      { latitude := Interpolation.interpolate (some b.latitude) (some a.latitude) (some t) interpType
        longitude := Interpolation.interpolate (some b.longitude) (some a.longitude) (some t) interpType
        zoom := Interpolation.interpolate (some b.zoom) (some a.zoom) (some t) interpType }

/-! ### Server-side parallel export (server/server.js, hybrid-start) -/

/-- One completed-frame descriptor pushed by a cluster task:
`{ index: frameIndex, path: filePath }`. -/
structure FrameDesc where
  index : ℕ
  path : String
deriving DecidableEq, Repr

/-- The per-session status record held in `sessions.json`. -/
structure HybridStatus where
  progress : ℚ
  status : String
  message : String
  frames : List FrameDesc
  totalFrames : ℕ
  downloadUrl : Option String
  filePath : Option String
deriving DecidableEq, Repr

/-- `totalFrames = Math.ceil(duration * fps)`. -/
def totalFramesOf (duration fps : ℚ) : ℕ := (⌈duration * fps⌉).toNat

/-- The status record created at the start of a hybrid export run. -/
def initialHybridStatus (totalFrames : ℕ) : HybridStatus :=
  { progress := 0
    status := "processing"
    message := "Starting parallel capture..."
    frames := []
    totalFrames := totalFrames
    downloadUrl := none
    filePath := none }

/-- `String(index).padStart(6, '0')`. -/
def padStart6 (s : String) : String :=
  if s.length < 6 then String.mk (List.replicate (6 - s.length) '0') ++ s else s

/-- The temp directory of the server, `path.join(__dirname, 'temp')`. -/
def TEMP_DIR : String := "temp"

/-- `path.join(frameDir, "frame_<padded index>.png")`. -/
def framePathOf (frameDir : String) (i : ℕ) : String :=
  frameDir ++ "/frame_" ++ padStart6 (toString i) ++ ".png"

/-- The success path of `cluster.task`: capture the screenshot for
`frameIndex`, then
`status.frames.push({index, path}); status.progress = ...;
 status.message = ...` followed by `saveSession`. -/
def clusterTaskRun (frameDir : String) (st : HybridStatus) (frameIndex : ℕ) : HybridStatus :=
  let frames := st.frames ++ [⟨frameIndex, framePathOf frameDir frameIndex⟩]
  let c := frames.length
  let tf := st.totalFrames
  { st with
    frames := frames
    progress := ((c : ℚ) / (tf : ℚ)) * 100
    message := "Captured " ++ toString c ++ "/" ++ toString tf ++ " frames" }

/-- One task drawn from the queue, tagged with whether its body succeeds.
A failing task logs and re-throws; the error is caught by the
puppeteer-cluster library (no `taskerror` handler and no retry limit are
configured, so the library logs it and the queue continues) and the
session record is left untouched by that task. -/
def clusterStep (frameDir : String) (st : HybridStatus) (t : ℕ × Bool) : HybridStatus :=
  if t.2 then clusterTaskRun frameDir st t.1 else st

/-- The cluster draining the whole queue: tasks settle in the given
completion order (any interleaving of the queued indices), each applying
its status update; `cluster.idle()` resolves afterwards. -/
def runCluster (frameDir : String) (st : HybridStatus) (tasks : List (ℕ × Bool)) : HybridStatus :=
  tasks.foldl (clusterStep frameDir) st

/-- The monitoring IIFE after `cluster.idle()`/`cluster.close()`: set the
encoding phase, run ffmpeg, and either complete the session (recording
`downloadUrl` and `filePath`) or, on an encoding-phase error, set
`status = 'error'` with an `Encoding failed:` message. -/
def monitorAndEncode (sessionId : String) (encodeResult : Except String Unit)
    (st : HybridStatus) : HybridStatus :=
  let st1 := { st with status := "encoding", progress := 90,
                       message := "Encoding video with ffmpeg..." }
  match encodeResult with
  | .ok _ =>
    { st1 with status := "completed", progress := 100,
               message := "Export complete! Ready for download.",
               downloadUrl := some ("/export/server/download/" ++ sessionId),
               filePath := some (TEMP_DIR ++ "/" ++ sessionId ++ "_output.mp4") }
  | .error e => { st1 with status := "error", message := "Encoding failed: " ++ e }

/-- A whole `/export/server/hybrid-start` run: queue `totalFrames` tasks,
let the cluster settle them in `completionOrder`, then monitor/encode.
`completionOrder` carries each task's index and whether its body
succeeded. -/
def hybridStart (duration fps : ℚ) (sessionId : String)
    (completionOrder : List (ℕ × Bool)) (encodeResult : Except String Unit) : HybridStatus :=
  let totalFrames := totalFramesOf duration fps
  let frameDir := TEMP_DIR ++ "/" ++ sessionId
  monitorAndEncode sessionId encodeResult
    (runCluster frameDir (initialHybridStatus totalFrames) completionOrder)

/-! ### Session lookup and the status/download endpoints (server/server.js) -/

/-- `getSession(sessionId)`: lookup in the `sessions.json` object. -/
def getSessionModel (store : List (String × HybridStatus)) (sid : String) : Option HybridStatus :=
  (store.find? (fun e => e.1 = sid)).map (fun e => e.2)

/-- `GET /export/server/status/:sessionId`: the session record when the id
is known, otherwise a 404 `Session not found` error. -/
def statusEndpoint (store : List (String × HybridStatus)) (sid : String) :
    Except String HybridStatus :=
  match getSessionModel store sid with
  | some st => .ok st
  | none => .error "Session not found in file."

/-- `GET /export/server/download/:sessionId`:
`if (!status || status.status !== 'completed' || !status.filePath)` give a
404 error, else serve `status.filePath`.  (`filePath`, when present, is
always assigned a nonempty path, so JavaScript falsiness coincides with
absence.) -/
def downloadEndpoint (store : List (String × HybridStatus)) (sid : String) :
    Except String String :=
  match getSessionModel store sid with
  | none => .error "Video not ready or session not found"
  | some st =>
    if st.status = "completed" then
      match st.filePath with
      | some p => .ok p
      | none => .error "Video not ready or session not found"
    else .error "Video not ready or session not found"

/-! ### Sequential client-side export (video-exporter, `startExport`) -/

/-- Result of one sequential export run: the frame indices captured (in
order), whether `/export/finish` was reached and a video artifact
produced, and the error surfaced by the `catch` block, if any. -/
structure SeqExportResult where
  captured : List ℕ
  artifact : Bool
  errorMessage : Option String
deriving DecidableEq, Repr

/-- The capture loop `for (frame = 0; frame < totalFrames; frame++)`: at
the top of each iteration
`if (!this.isExporting) throw new Error('Export Cancelled')`, otherwise
the frame is rendered, captured and buffered.  `exporting i` is the value
of the `isExporting` flag observed at the top of iteration `i` (the
cancel button clears it asynchronously). -/
def seqLoop (exporting : ℕ → Bool) : ℕ → ℕ → List ℕ × Option String
  | 0, _ => ([], none)
  | n + 1, i =>
    if exporting i then
      let r := seqLoop exporting n (i + 1)
      (i :: r.1, r.2)
    else ([], some "Export Cancelled")

/-- A whole sequential `startExport` run: if the loop finished, all
uploads are awaited and `/export/finish` encodes and downloads the
artifact; if it threw, the `catch` block reports the error and no
finish/encode request is ever issued, so no artifact exists. -/
def startExportSeq (totalFrames : ℕ) (exporting : ℕ → Bool) : SeqExportResult :=
  let r := seqLoop exporting totalFrames 0
  match r.2 with
  | none => ⟨r.1, true, none⟩
  | some e => ⟨r.1, false, some e⟩

/-- The client side of `startHybridParallelExport` after the server run
settles: if the operator cancelled (`isExporting` cleared), the polling
loop exits and `throw new Error('Export cancelled')` reaches the catch
block — no download link is ever clicked; otherwise a `completed` status
triggers the download and an `error` status surfaces the server message.
The server session itself is never notified of the cancellation. -/
def hybridClientPoll (cancelled : Bool) (serverFinal : HybridStatus) : Bool × Option String :=
  if cancelled then (false, some "Export cancelled")
  else if serverFinal.status = "completed" then (true, none)
  else if serverFinal.status = "error" then (false, some serverFinal.message)
  else (false, none)

/-! ### The upload-concurrency gate of `startExport` (video-exporter) -/

/-- `uploadPromises.length` after batch `i` (0-based) has been pushed:
settled promises are never removed from the array. -/
def uploadPromisesLen (i : ℕ) : ℕ := i + 1

/-- Whether `await Promise.race(uploadPromises)` actually blocks after
pushing batch `i`: `Promise.race` settles as soon as any promise in the
array has settled, and already-settled promises stay in the array, so the
race blocks only while no batch at all has settled.  `settled j` says
batch `j`'s upload has settled by this point of the run. -/
def raceWouldWait (settled : ℕ → Bool) (i : ℕ) : Bool :=
  !(List.range (i + 1)).any settled

/-- The gate `if (uploadPromises.length > 50) { await Promise.race(...) }`
after pushing batch `i`: true iff the loop is actually forced to wait. -/
def gateWaits (settled : ℕ → Bool) (i : ℕ) : Bool :=
  decide (uploadPromisesLen i > 50) && raceWouldWait settled i

/-- Number of unresolved upload submissions in flight right after batch
`i` was pushed. -/
def pendingUploads (settled : ℕ → Bool) (i : ℕ) : ℕ :=
  ((List.range (i + 1)).filter (fun j => !settled j)).length

/-- A run in which the very first batch upload settles immediately and
every later upload is still pending throughout the capture loop. -/
def firstOnlySettled : ℕ → Bool := fun j => j == 0

/-! ## Helper lemmas -/

lemma getLast?_cons_or {α : Type} (a : α) (l : List α) :
    (a :: l).getLast? = l.getLast?.or (some a) := by
  induction l generalizing a with
  | nil => rfl
  | cons b t ih =>
    have h : (a :: b :: t).getLast? = (b :: t).getLast? := rfl
    rw [h, ih b]
    cases ht : t.getLast? <;> simp [Option.or]

/-- The scan loop computes, on a strictly time-sorted list, the last
element with `time ≤ q` (falling back to the accumulator) and the first
element with `time ≥ q`. -/
lemma bracketLoop_eq (q : ℚ) (kfs : List Keyframe) (b0 : Option Keyframe)
    (hs : kfs.Pairwise (fun a b => a.time < b.time)) :
    bracketLoop q kfs b0 =
      (((kfs.filter (fun kf => decide (kf.time ≤ q))).getLast?).or b0,
        kfs.find? (fun kf => decide (q ≤ kf.time))) := by
  induction kfs generalizing b0 with
  | nil => simp [bracketLoop]
  | cons kf rest ih =>
    rcases List.pairwise_cons.mp hs with ⟨hhead, htail⟩
    by_cases h2 : q ≤ kf.time
    · have hrest : rest.filter (fun x => decide (x.time ≤ q)) = [] := by
        rw [List.filter_eq_nil_iff]
        intro x hx
        have hx2 := hhead x hx
        simp only [decide_eq_true_eq]
        push_neg
        linarith
      rw [List.find?_cons_of_pos rest (by simpa using h2)]
      by_cases h1 : kf.time ≤ q
      · simp [bracketLoop, h1, h2, hrest]
      · simp [bracketLoop, h1, h2, hrest]
    · have hlt : kf.time < q := lt_of_not_le h2
      have h1 : kf.time ≤ q := le_of_lt hlt
      rw [List.find?_cons_of_neg rest (by simpa using h2)]
      rw [bracketLoop]
      simp only [if_pos h1, if_neg h2]
      rw [ih (some kf) htail]
      have hfc : (kf :: rest).filter (fun x => decide (x.time ≤ q)) =
          kf :: rest.filter (fun x => decide (x.time ≤ q)) := by
        simp [h1]
      rw [hfc, getLast?_cons_or]
      cases hfr : (rest.filter (fun x => decide (x.time ≤ q))).getLast? <;>
        simp [Option.or]

/-- On a (weakly) sorted list, bracketing at the exact time of a keyframe
whose time no other keyframe shares returns that keyframe on both sides,
whatever the accumulator. -/
lemma bracketLoop_self (kfs : List Keyframe) (kf : Keyframe)
    (hs : kfs.Pairwise (fun a b => a.time ≤ b.time)) (hmem : kf ∈ kfs)
    (huniq : ∀ x ∈ kfs, x.time = kf.time → x = kf) (b0 : Option Keyframe) :
    bracketLoop kf.time kfs b0 = (some kf, some kf) := by
  induction kfs generalizing b0 with
  | nil => cases hmem
  | cons a rest ih =>
    rcases List.pairwise_cons.mp hs with ⟨hhead, htail⟩
    by_cases ha : a = kf
    · subst ha
      simp [bracketLoop]
    · have hmem' : kf ∈ rest := by
        rcases List.mem_cons.mp hmem with h | h
        · exact absurd h.symm ha
        · exact h
      have hle : a.time ≤ kf.time := hhead kf hmem'
      have hne : a.time ≠ kf.time := fun h => ha (huniq a (List.mem_cons_self a rest) h)
      have hlt : a.time < kf.time := lt_of_le_of_ne hle hne
      rw [bracketLoop]
      simp only [if_pos hle, if_neg (not_le.mpr hlt)]
      exact ih htail hmem' (fun x hx h => huniq x (List.mem_cons_of_mem a hx) h) (some a)

/-- Reduction of `interpolateAt` once the bracket is known two-sided. -/
lemma interpolateAt_eq_of_bracket (kfs : List Keyframe) (time : ℚ) (kb ka : Keyframe)
    (hbr : getSurroundingKeyframes kfs time = (some kb, some ka)) :
    KeyframeManager.interpolateAt kfs time =
      (if kb = ka then kb.toJSON
       else
        { latitude := Interpolation.interpolate (some kb.latitude) (some ka.latitude)
            (some (if ka.time - kb.time > 0 then (time - kb.time) / (ka.time - kb.time) else 0))
            kb.interpolationType
          longitude := Interpolation.interpolate (some kb.longitude) (some ka.longitude)
            (some (if ka.time - kb.time > 0 then (time - kb.time) / (ka.time - kb.time) else 0))
            kb.interpolationType
          zoom := Interpolation.interpolate (some kb.zoom) (some ka.zoom)
            (some (if ka.time - kb.time > 0 then (time - kb.time) / (ka.time - kb.time) else 0))
            kb.interpolationType }) := by
  unfold KeyframeManager.interpolateAt
  rw [hbr]

/-! ## C4: bracket lookup -/

/-- A one-keyframe store used to exhibit the edge behaviour of
`getSurroundingKeyframes`. -/
def kfC4 : Keyframe := ⟨0, 1, 2, 3, "linear"⟩

/-- C4 counterexample: with a single keyframe at time `0` and query time
`1` (past the last keyframe), the bracket lookup returns
`before = some kfC4` but `after = none` — not `after = before` as the
claim states; the substitution of the missing side happens in the caller
`interpolateAt`, not in the bracket lookup itself. -/
theorem bracket_edge_cex :
    getSurroundingKeyframes [kfC4] 1 = (some kfC4, none) ∧
    (getSurroundingKeyframes [kfC4] 1).2 ≠ (getSurroundingKeyframes [kfC4] 1).1 := by
  decide

/-- C4 (amended): for every keyframe collection sorted by strictly
increasing time and every query time, the bracket lookup returns
`before` = the last keyframe with `time ≤ queryTime` (`none` if there is
none, in particular when the query is before the first keyframe) and
`after` = the first keyframe with `time ≥ queryTime` (`none` if there is
none, in particular when the query is past the last keyframe); with no
keyframes both are `none`.  The caller substitutes the present side for a
missing one. -/
theorem bracket_characterization (kfs : List Keyframe) (q : ℚ)
    (hs : kfs.Pairwise (fun a b => a.time < b.time)) :
    getSurroundingKeyframes kfs q =
      ((kfs.filter (fun kf => decide (kf.time ≤ q))).getLast?,
        kfs.find? (fun kf => decide (q ≤ kf.time))) := by
  unfold getSurroundingKeyframes
  by_cases hk : kfs = []
  · subst hk; simp
  · rw [if_neg hk, bracketLoop_eq q kfs none hs, Option.or_none]

/-- Witness for C4 (amended) at a concrete two-keyframe store. -/
theorem bracket_characterization_witness :
    getSurroundingKeyframes [kfC4, ⟨10, 4, 5, 6, "easeIn"⟩] 5 =
      (some kfC4, some ⟨10, 4, 5, 6, "easeIn"⟩) := by
  rw [bracket_characterization [kfC4, ⟨10, 4, 5, 6, "easeIn"⟩] 5 (by decide)]
  decide

/-! ## C7: round-trip sampling at a keyframe's own time -/

/-- C7: (1) for every weakly time-sorted store and every keyframe in it
whose time no other keyframe shares, sampling at exactly that keyframe's
time returns exactly its stored latitude, longitude and zoom; (2) whenever
the bracket returns `before = after`, the sample is that keyframe's state
unchanged (no extrapolation). -/
theorem interpolateAt_roundtrip :
    (∀ (kfs : List Keyframe) (kf : Keyframe),
      kfs.Pairwise (fun a b => a.time ≤ b.time) → kf ∈ kfs →
      (∀ x ∈ kfs, x.time = kf.time → x = kf) →
      KeyframeManager.interpolateAt kfs kf.time = kf.toJSON) ∧
    (∀ (kfs : List Keyframe) (t : ℚ) (k : Keyframe),
      getSurroundingKeyframes kfs t = (some k, some k) →
      KeyframeManager.interpolateAt kfs t = k.toJSON) := by
  have part2 : ∀ (kfs : List Keyframe) (t : ℚ) (k : Keyframe),
      getSurroundingKeyframes kfs t = (some k, some k) →
      KeyframeManager.interpolateAt kfs t = k.toJSON := by
    intro kfs t k hbr
    rw [interpolateAt_eq_of_bracket kfs t k k hbr, if_pos rfl]
  refine ⟨?_, part2⟩
  intro kfs kf hs hmem huniq
  apply part2
  unfold getSurroundingKeyframes
  rw [if_neg (List.ne_nil_of_mem hmem)]
  exact bracketLoop_self kfs kf hs hmem huniq none

/-- Witness for C7 at concrete stores. -/
theorem interpolateAt_roundtrip_witness :
    KeyframeManager.interpolateAt [kfC4, ⟨4, 7, 8, 9, "easeInOut"⟩] 4 =
      (⟨4, 7, 8, 9, "easeInOut"⟩ : Keyframe).toJSON ∧
    KeyframeManager.interpolateAt [kfC4] 0 = kfC4.toJSON := by
  constructor
  · exact interpolateAt_roundtrip.1 [kfC4, ⟨4, 7, 8, 9, "easeInOut"⟩]
      ⟨4, 7, 8, 9, "easeInOut"⟩ (by decide) (by decide) (by decide)
  · exact interpolateAt_roundtrip.2 [kfC4] 0 kfC4 (by decide)

/-! ## C8: default state and single-keyframe sampling -/

/-- C8: with zero keyframes, sampling at any time returns the fixed
default state constant (latitude 35.6762, longitude 139.6503, zoom 13);
with exactly one keyframe, sampling returns that keyframe's state at every
query time — before, at, or after its time. -/
theorem interpolateAt_default_single :
    (∀ t : ℚ, KeyframeManager.interpolateAt [] t = defaultCamera) ∧
    (∀ (kf : Keyframe) (t : ℚ), KeyframeManager.interpolateAt [kf] t = kf.toJSON) := by
  constructor
  · intro t; rfl
  · intro kf t
    by_cases h1 : t ≤ kf.time <;> by_cases h2 : kf.time ≤ t
    · simp [KeyframeManager.interpolateAt, getSurroundingKeyframes, bracketLoop, h1, h2]
    · simp [KeyframeManager.interpolateAt, getSurroundingKeyframes, bracketLoop, h1, h2]
    · simp [KeyframeManager.interpolateAt, getSurroundingKeyframes, bracketLoop, h1, h2]
    · exact absurd (le_of_not_le h1) h2

/-! ## C10: unknown curve names -/

/-- C10 counterexample: `"interpolate"` is not one of the five curve
names, yet `this["interpolate"]` is truthy (it is the `interpolate` method
itself), so the call does not fall back to linear: the self-call runs with
`b` and `t` undefined and the result is NaN, not `a + (b - a) * t`. -/
theorem interpolate_self_property_cex :
    Interpolation.interpolate (some 0) (some 1) (some 0) "interpolate" ≠
      some ((0 : ℚ) + (1 - 0) * 0) := by
  decide

/-- C10 (amended): for every pair of values, every `t`, and every type
string that does not name an own or inherited property of the
`Interpolation` object (the five defined curves, `interpolate` itself,
and the `Object.prototype` members), `interpolate` does not fail: it
silently falls back to the linear curve and returns `a + (b - a) * t`. -/
theorem interpolate_unknown_type_linear (a b t : ℚ) (ty : String)
    (h : ty ∉ ["linear", "easeIn", "easeOut", "easeInOut", "bezier", "interpolate"]
        ++ objectProtoProps) :
    Interpolation.interpolate (some a) (some b) (some t) ty = some (a + (b - a) * t) := by
  rw [List.mem_append, not_or] at h
  obtain ⟨hown, hproto⟩ := h
  simp only [List.mem_cons, List.not_mem_nil, or_false, not_or] at hown
  obtain ⟨h1, h2, h3, h4, h5, h6⟩ := hown
  have hc : Interpolation.curveOf ty = none := by
    unfold Interpolation.curveOf
    simp [h1, h2, h3, h4, h5, h6, hproto]
  unfold Interpolation.interpolate
  rw [hc]
  simp [Interpolation.interpolateCore, Interpolation.linear, jadd, jsub, jmul]

/-- Witness for C10 (amended) at a concrete unknown curve name. -/
theorem interpolate_unknown_type_linear_witness :
    Interpolation.interpolate (some 2) (some 6) (some (1/4)) "cubic" =
      some ((2 : ℚ) + (6 - 2) * (1 / 4)) :=
  interpolate_unknown_type_linear 2 6 (1/4) "cubic" (by decide)

/-! ## C5: no overshoot for the polynomial easing curves -/

/-- A JavaScript value lying between two rationals. -/
def betweenJ (x y : ℚ) (v : JVal) : Prop :=
  ∃ q, v = some q ∧ min x y ≤ q ∧ q ≤ max x y

lemma affine_between (a b e : ℚ) (h0 : 0 ≤ e) (h1 : e ≤ 1) :
    min a b ≤ a + (b - a) * e ∧ a + (b - a) * e ≤ max a b := by
  rcases le_total a b with h | h
  · rw [min_eq_left h, max_eq_right h]
    constructor <;> nlinarith
  · rw [min_eq_right h, max_eq_left h]
    constructor <;> nlinarith

/-- For the four polynomial curve names, `interpolate` on defined inputs
evaluates to `a + (b - a) * e` for an eased parameter `e ∈ [0, 1]`
whenever `t ∈ [0, 1]`. -/
lemma eased_value (ty : String)
    (hty : ty = "linear" ∨ ty = "easeIn" ∨ ty = "easeOut" ∨ ty = "easeInOut")
    (t : ℚ) (ht0 : 0 ≤ t) (ht1 : t ≤ 1) :
    ∃ e : ℚ, 0 ≤ e ∧ e ≤ 1 ∧
      ∀ a b : ℚ, Interpolation.interpolate (some a) (some b) (some t) ty =
        some (a + (b - a) * e) := by
  rcases hty with h | h | h | h <;> subst h
  · exact ⟨t, ht0, ht1, fun a b => by
      simp [Interpolation.interpolate, Interpolation.curveOf, Interpolation.linear,
        Interpolation.interpolateCore, jadd, jmul, jsub]⟩
  · refine ⟨t * t * t, by positivity, by nlinarith, fun a b => ?_⟩
    simp [Interpolation.interpolate, Interpolation.curveOf, Interpolation.easeIn,
      Interpolation.interpolateCore, jadd, jmul, jsub]
  · refine ⟨1 - (1 - t) ^ 3, ?_, ?_, fun a b => ?_⟩
    · nlinarith [mul_nonneg ht0 (sq_nonneg (t - 3/2))]
    · nlinarith [pow_nonneg (sub_nonneg.mpr ht1) 3]
    · simp [Interpolation.interpolate, Interpolation.curveOf, Interpolation.easeOut,
        Interpolation.interpolateCore, jadd, jmul, jsub, jpow]
  · by_cases hc : t < (0.5 : ℚ)
    · refine ⟨4 * (t * t * t), by positivity, by nlinarith, fun a b => ?_⟩
      simp [Interpolation.interpolate, Interpolation.curveOf, Interpolation.easeInOut,
        Interpolation.interpolateCore, jadd, jmul, jsub, jlt, hc]
    · have h5 : (0.5 : ℚ) ≤ t := le_of_not_lt hc
      have hv0 : (0 : ℚ) ≤ 1 - t := by linarith
      have hv1 : (1 : ℚ) - t ≤ 1/2 := by linarith
      refine ⟨1 - (-2 * t + 2) ^ 3 / 2, ?_, ?_, fun a b => ?_⟩
      · nlinarith [mul_nonneg (mul_nonneg hv0 hv0) hv0, mul_nonneg hv0 hv0,
          sq_nonneg (1 - t)]
      · nlinarith [pow_nonneg (by linarith : (0 : ℚ) ≤ -2 * t + 2) 3]
      · simp [Interpolation.interpolate, Interpolation.curveOf, Interpolation.easeInOut,
          Interpolation.interpolateCore, jadd, jmul, jsub, jpow, jdiv, jlt, hc]

/-- C5: whenever the bracket lookup yields keyframes `kb, ka` whose
outgoing curve (taken from `kb`) is `linear`, `easeIn`, `easeOut` or
`easeInOut`, sampling at any time between the two keyframes' times yields
latitude, longitude and zoom each lying between the corresponding stored
values of the bracketing keyframes (no overshoot); the `bezier` curve is
not covered by this bound. -/
theorem interpolateAt_no_overshoot (kfs : List Keyframe) (time : ℚ) (kb ka : Keyframe)
    (hbr : getSurroundingKeyframes kfs time = (some kb, some ka))
    (hty : kb.interpolationType = "linear" ∨ kb.interpolationType = "easeIn" ∨
      kb.interpolationType = "easeOut" ∨ kb.interpolationType = "easeInOut")
    (h1 : kb.time ≤ time) (h2 : time ≤ ka.time) :
    betweenJ kb.latitude ka.latitude (KeyframeManager.interpolateAt kfs time).latitude ∧
    betweenJ kb.longitude ka.longitude (KeyframeManager.interpolateAt kfs time).longitude ∧
    betweenJ kb.zoom ka.zoom (KeyframeManager.interpolateAt kfs time).zoom := by
  rw [interpolateAt_eq_of_bracket kfs time kb ka hbr]
  by_cases heq : kb = ka
  · rw [if_pos heq]
    subst heq
    exact ⟨⟨kb.latitude, rfl, by simp, by simp⟩, ⟨kb.longitude, rfl, by simp, by simp⟩,
      ⟨kb.zoom, rfl, by simp, by simp⟩⟩
  · rw [if_neg heq]
    set tv : ℚ := if ka.time - kb.time > 0 then (time - kb.time) / (ka.time - kb.time) else 0
      with htv
    have ht0 : 0 ≤ tv := by
      rw [htv]
      split
      · next hd => exact div_nonneg (by linarith) (le_of_lt hd)
      · exact le_refl 0
    have ht1 : tv ≤ 1 := by
      rw [htv]
      split
      · next hd => exact (div_le_one hd).mpr (by linarith)
      · exact zero_le_one
    obtain ⟨e, he0, he1, heval⟩ := eased_value kb.interpolationType hty tv ht0 ht1
    exact ⟨⟨kb.latitude + (ka.latitude - kb.latitude) * e, heval kb.latitude ka.latitude,
        (affine_between _ _ e he0 he1).1, (affine_between _ _ e he0 he1).2⟩,
      ⟨kb.longitude + (ka.longitude - kb.longitude) * e, heval kb.longitude ka.longitude,
        (affine_between _ _ e he0 he1).1, (affine_between _ _ e he0 he1).2⟩,
      ⟨kb.zoom + (ka.zoom - kb.zoom) * e, heval kb.zoom ka.zoom,
        (affine_between _ _ e he0 he1).1, (affine_between _ _ e he0 he1).2⟩⟩

/-- Witness for C5 at the spec's concrete example: keyframes
`(0, {0, 0, 1})` and `(10, {10, 20, 5})` with linear curve, sampled at
`t = 5`. -/
theorem interpolateAt_no_overshoot_witness :
    betweenJ 0 10 (KeyframeManager.interpolateAt
      [⟨0, 0, 0, 1, "linear"⟩, ⟨10, 10, 20, 5, "linear"⟩] 5).latitude ∧
    betweenJ 0 20 (KeyframeManager.interpolateAt
      [⟨0, 0, 0, 1, "linear"⟩, ⟨10, 10, 20, 5, "linear"⟩] 5).longitude ∧
    betweenJ 1 5 (KeyframeManager.interpolateAt
      [⟨0, 0, 0, 1, "linear"⟩, ⟨10, 10, 20, 5, "linear"⟩] 5).zoom :=
  interpolateAt_no_overshoot [⟨0, 0, 0, 1, "linear"⟩, ⟨10, 10, 20, 5, "linear"⟩] 5
    ⟨0, 0, 0, 1, "linear"⟩ ⟨10, 10, 20, 5, "linear"⟩ (by decide) (Or.inl rfl)
    (by norm_num) (by norm_num)

/-! ## C1/C2: parallel coordinator -/

/-- The frames accumulated by the cluster are the initial frames followed
by one descriptor per *successful* task, in completion order. -/
lemma runCluster_frames (fd : String) (tasks : List (ℕ × Bool)) (st : HybridStatus) :
    (runCluster fd st tasks).frames =
      st.frames ++ (tasks.filter (fun x => x.2)).map
        (fun x => (⟨x.1, framePathOf fd x.1⟩ : FrameDesc)) := by
  induction tasks generalizing st with
  | nil => simp [runCluster]
  | cons t rest ih =>
    have hstep : runCluster fd st (t :: rest) = runCluster fd (clusterStep fd st t) rest := by
      simp [runCluster]
    rw [hstep, ih]
    by_cases h : t.2
    · simp [clusterStep, clusterTaskRun, h, List.filter_cons]
    · simp [clusterStep, h, List.filter_cons]

/-- The monitoring stage never touches the `frames` collection. -/
lemma monitorAndEncode_frames (sessionId : String) (r : Except String Unit)
    (st : HybridStatus) : (monitorAndEncode sessionId r st).frames = st.frames := by
  cases r <;> rfl

/-- C1 counterexample: a run in which one capture task throws still
reaches status `completed` — the cluster library swallows the re-thrown
error and the encode stage accepts the remaining frames — yet the
completed session's `frames` are not `0 .. totalFrames - 1`: reaching
`completed` alone does not guarantee a gap-free frame set. -/
theorem hybrid_completed_gap_cex :
    (hybridStart 1 2 "s5" [(0, false), (1, true)] (.ok ())).status = "completed" ∧
    totalFramesOf 1 2 = 2 ∧
    ¬ ((hybridStart 1 2 "s5" [(0, false), (1, true)] (.ok ())).frames.map
        FrameDesc.index).Perm (List.range (totalFramesOf 1 2)) := by
  have h2 : totalFramesOf 1 2 = 2 := by
    norm_num [totalFramesOf]
    rfl
  refine ⟨rfl, h2, ?_⟩
  rw [h2]
  decide

/-- C1 (amended): for every parallel-coordinator run with
`totalFrames = ceil(duration * fps)` in which all capture tasks succeed
(in an arbitrary completion order — any permutation of the queued indices)
and encoding succeeds, the final session has status `completed` and its
`frames` collection holds exactly `totalFrames` descriptors whose
`frameIndex` values are exactly `0 .. totalFrames - 1`, with no gaps and
no duplicates, regardless of completion order.  (Reaching `completed`
alone is not enough: a run with a failed task may also complete, with a
gap — see the counterexample.) -/
theorem hybrid_frames_complete (duration fps : ℚ) (sessionId : String) (order : List ℕ)
    (hperm : order.Perm (List.range (totalFramesOf duration fps))) :
    (hybridStart duration fps sessionId (order.map (fun i => (i, true))) (.ok ())).status
        = "completed" ∧
    (hybridStart duration fps sessionId (order.map (fun i => (i, true))) (.ok ())).frames.length
        = totalFramesOf duration fps ∧
    ((hybridStart duration fps sessionId (order.map (fun i => (i, true))) (.ok ())).frames.map
        FrameDesc.index).Perm (List.range (totalFramesOf duration fps)) := by
  have hframes : (hybridStart duration fps sessionId (order.map (fun i => (i, true)))
      (.ok ())).frames.map FrameDesc.index = order := by
    unfold hybridStart
    rw [monitorAndEncode_frames, runCluster_frames]
    have hfil : (List.map (fun i => (i, true)) order).filter (fun x => x.2) =
        List.map (fun i => (i, true)) order :=
      List.filter_eq_self.mpr (fun a ha => by
        obtain ⟨i, _, rfl⟩ := List.mem_map.mp ha; rfl)
    rw [hfil]
    simp [initialHybridStatus, List.map_map, Function.comp_def]
  refine ⟨rfl, ?_, ?_⟩
  · have := congrArg List.length hframes
    simpa [hperm.length_eq, List.length_range] using this
  · rw [hframes]
    exact hperm

/-- Witness for C1: two frames completing out of order. -/
theorem hybrid_frames_complete_witness :
    (hybridStart 1 2 "s1" ([1, 0].map (fun i => (i, true))) (.ok ())).status = "completed" ∧
    (hybridStart 1 2 "s1" ([1, 0].map (fun i => (i, true))) (.ok ())).frames.length
        = totalFramesOf 1 2 ∧
    ((hybridStart 1 2 "s1" ([1, 0].map (fun i => (i, true))) (.ok ())).frames.map
        FrameDesc.index).Perm (List.range (totalFramesOf 1 2)) :=
  hybrid_frames_complete 1 2 "s1" [1, 0] (by
    have h2 : totalFramesOf 1 2 = 2 := by
      norm_num [totalFramesOf]
      rfl
    rw [h2]
    decide)

/-- C2 counterexample: with two queued tasks of which the first one to run
throws, the session does **not** transition to a Failed state and frame
writes do **not** stop: the second task still writes its frame and the run
proceeds through encoding to status `completed`. -/
theorem hybrid_failure_not_failfast_cex :
    (hybridStart 1 2 "s2" [(0, false), (1, true)] (.ok ())).status = "completed" ∧
    (hybridStart 1 2 "s2" [(0, false), (1, true)] (.ok ())).frames.map FrameDesc.index
      = [1] := by
  decide

/-- C2 (amended): a throwing capture task is logged and re-thrown to the
cluster library, which records it without stopping the queue: the
remaining tasks still run and write their frames (the final `frames` are
exactly the successful tasks, in completion order), the session never
enters a Failed state during capture, and after all tasks settle the run
proceeds to encoding — finishing `completed`, or `error` only if the
encoding phase itself fails. -/
theorem hybrid_task_failure_continues (duration fps : ℚ) (sessionId : String)
    (tasks : List (ℕ × Bool)) (encodeResult : Except String Unit) :
    (hybridStart duration fps sessionId tasks encodeResult).frames.map FrameDesc.index
        = (tasks.filter (fun x => x.2)).map (fun x => x.1) ∧
    (hybridStart duration fps sessionId tasks encodeResult).status
        = (match encodeResult with | .ok _ => "completed" | .error _ => "error") := by
  constructor
  · unfold hybridStart
    rw [monitorAndEncode_frames, runCluster_frames]
    simp [initialHybridStatus, List.map_map, Function.comp]
  · cases encodeResult <;> rfl

/-! ## C3: cancellation -/

/-- If the `isExporting` flag is seen true for the first `k` iterations
and false at iteration `i + k` (with fuel to spare), the capture loop
exits at that iteration with exactly the frames before it captured. -/
lemma seqLoop_cancel (exporting : ℕ → Bool) :
    ∀ (k n i : ℕ), (∀ j, j < k → exporting (i + j) = true) →
      exporting (i + k) = false → k < n →
      seqLoop exporting n i = (List.range' i k, some "Export Cancelled") := by
  intro k
  induction k with
  | zero =>
    intro n i hall hc hlt
    cases n with
    | zero => omega
    | succ m =>
      have hc0 : exporting i = false := by simpa using hc
      simp [seqLoop, hc0]
  | succ k ih =>
    intro n i hall hc hlt
    cases n with
    | zero => omega
    | succ m =>
      have h0 : exporting i = true := by simpa using hall 0 (Nat.succ_pos k)
      have hrec := ih m (i + 1)
        (fun j hj => by
          have h := hall (j + 1) (by omega)
          rw [show i + 1 + j = i + (j + 1) by omega]
          exact h)
        (by rw [show i + 1 + k = i + (k + 1) by omega]; exact hc)
        (by omega)
      rw [seqLoop]
      simp only [h0, if_true]
      rw [hrec, List.range'_succ]

/-- C3 counterexample: cancelling the parallel (hybrid) export mid-run
only makes the client polling loop throw `Export cancelled` — the server
session is never notified: it still runs to `completed` (never any
Cancelled status) and its artifact remains downloadable. -/
theorem hybrid_cancel_not_cancelled_cex :
    hybridClientPoll true (hybridStart 1 2 "s4" [(0, true), (1, true)] (.ok ()))
        = (false, some "Export cancelled") ∧
    (hybridStart 1 2 "s4" [(0, true), (1, true)] (.ok ())).status = "completed" ∧
    (downloadEndpoint [("s4", hybridStart 1 2 "s4" [(0, true), (1, true)] (.ok ()))]
        "s4").isOk = true := by
  decide

/-- C3 (amended): (1) in the sequential pipeline the cancellation flag is
checked at the top of each frame iteration and the loop exits immediately
when it is set: if the flag is cleared at iteration `c`, exactly frames
`0 .. c-1` were captured, no finish/encode request is issued and no
artifact is produced — the run surfaces `Export Cancelled`;  (2) in the
parallel variant, cancelling only stops the client (`Export cancelled`,
no download click): the server session is unaffected, still completes,
and its artifact remains downloadable — no session ever carries a
Cancelled status. -/
theorem cancel_behavior :
    (∀ (totalFrames : ℕ) (exporting : ℕ → Bool) (c : ℕ),
      (∀ j, j < c → exporting j = true) → exporting c = false → c < totalFrames →
      startExportSeq totalFrames exporting =
        ⟨List.range c, false, some "Export Cancelled"⟩) ∧
    (∀ (duration fps : ℚ) (sessionId : String) (order : List ℕ),
      hybridClientPoll true
          (hybridStart duration fps sessionId (order.map (fun i => (i, true))) (.ok ()))
        = (false, some "Export cancelled") ∧
      (hybridStart duration fps sessionId (order.map (fun i => (i, true))) (.ok ())).status
        = "completed" ∧
      (downloadEndpoint
          [(sessionId, hybridStart duration fps sessionId
              (order.map (fun i => (i, true))) (.ok ()))] sessionId).isOk = true) := by
  constructor
  · intro tf exporting c hall hc hlt
    unfold startExportSeq
    rw [seqLoop_cancel exporting c tf 0 (fun j hj => by simpa using hall j hj)
      (by simpa using hc) hlt]
    rw [List.range_eq_range']
  · intro duration fps sid order
    refine ⟨rfl, rfl, ?_⟩
    simp [downloadEndpoint, getSessionModel, hybridStart, monitorAndEncode, Except.isOk,
      Except.toBool]

/-- Witness for C3 (amended): a three-frame sequential export cancelled at
iteration 1, plus a concrete cancelled parallel run. -/
theorem cancel_behavior_witness :
    startExportSeq 3 (fun i => decide (i < 1)) =
      ⟨List.range 1, false, some "Export Cancelled"⟩ ∧
    (downloadEndpoint [("s3", hybridStart 1 2 "s3" ([0, 1].map (fun i => (i, true)))
        (.ok ()))] "s3").isOk = true :=
  ⟨cancel_behavior.1 3 (fun i => decide (i < 1)) 1 (by decide) (by decide) (by decide),
   (cancel_behavior.2 1 2 "s3" [0, 1]).2.2⟩

/-! ## C6: the upload-concurrency gate -/

/-- C6 (code bug): schedule in which the first batch upload settles
immediately and every later upload stays pending.  The gate
`if (uploadPromises.length > 50) await Promise.race(uploadPromises)`
never blocks — `Promise.race` settles at once because the settled batch-0
promise is still in the array — so after pushing batch 51 there are 51
unresolved submissions in flight, exceeding the intended bound of 50
pending batches stated in the source comment. -/
theorem upload_gate_unbounded :
    ((List.range 52).all (fun i => !gateWaits firstOnlySettled i)) = true ∧
    pendingUploads firstOnlySettled 51 = 51 := by
  decide

/-! ## C9: status and download endpoints -/

/-- A freshly started session, still capturing. -/
def processingSession : HybridStatus := initialHybridStatus 10

/-- C9 counterexample: polling the status of a *known* session in a
non-completed state does not return a SessionNotFound-style error — it
returns the session record itself. -/
theorem status_poll_known_session_cex :
    statusEndpoint [("s9", processingSession)] "s9" = .ok processingSession ∧
    processingSession.status = "processing" :=
  ⟨rfl, rfl⟩

/-- C9 (amended): the download endpoint succeeds exactly when the session
is known, its status is `completed` and a file path has been recorded —
in every other case (unknown/expired id, or any non-completed state,
including a failed one) it returns a `Video not ready or session not
found` error and serves no artifact; the status endpoint returns a
SessionNotFound error exactly for unknown ids, and otherwise returns the
session record (whatever its state). -/
theorem download_requires_completed (store : List (String × HybridStatus)) (sid : String) :
    ((downloadEndpoint store sid).isOk = true ↔
      ∃ st, getSessionModel store sid = some st ∧ st.status = "completed" ∧
        st.filePath.isSome = true) ∧
    ((statusEndpoint store sid).isOk = true ↔ (getSessionModel store sid).isSome = true) := by
  constructor
  · unfold downloadEndpoint
    cases h : getSessionModel store sid with
    | none => simp [Except.isOk, Except.toBool]
    | some st =>
      by_cases hc : st.status = "completed"
      · cases hfp : st.filePath with
        | none => simp [hc, hfp, Except.isOk, Except.toBool]
        | some p => simp [hc, hfp, Except.isOk, Except.toBool]
      · simp [hc, Except.isOk, Except.toBool]
  · unfold statusEndpoint
    cases h : getSessionModel store sid <;> simp [Except.isOk, Except.toBool]
